import Mathlib

/-!
Shallow embedding of the XVIZ stream-message parser
(src/modules/parser/src/parsers/parse-stream-data-message.js).

JavaScript runtime values are modelled by the inductive type JSValue below.
Object identity (needed for the frame-effect properties about in-place
mutation and aliasing) is modelled by a numeric id carried on every object:
two values denote the same heap object exactly when the source expression
returns the very reference it was given, in which case the embedding
returns a value with the same id.  Freshly allocated objects (results of
JSON parsing, object spreads, and record constructions) are given id 0;
no theorem in this file asserts freshness of an allocation, so the
constant id for fresh objects is harmless.

Exceptions (TypeError from dereferencing null/undefined, SyntaxError from
JSON.parse) are modelled with the Except monad; the try/catch at the
parseStreamDataMessage boundary corresponds to casing on the Except value.

External collaborators that live outside the given source file
(the binary XVIZ codec, the metadata parser, the two timeslice decoders,
the video handler, the global XVIZ settings, and the platform built-ins
JSON.parse / TextDecoder) are modelled at their boundary, following the
abstract signatures of the specification; each such definition carries a
doc comment saying so.
-/

/-- JavaScript exception values thrown by the modelled code paths. -/
inductive JSErr where
  | typeError (msg : String)
  | syntaxError (msg : String)

/-- JavaScript runtime values, as used by the parser module.
The constructors bytes and bin both denote Uint8Array buffers: bin is a
buffer carrying the binary-XVIZ magic (the external codec recognizes it and
decodes it to its content), bytes is any other byte buffer.  blob denotes a
Blob.  tsV1/tsV2 are the opaque records produced by the external v1/v2
timeslice decoders (modelled from the spec signatures
decodeTimesliceV1/V2(StructuralValue, convertPrimitiveFlag) -> DataUpdateRecord),
recording which decoder ran and with which arguments. -/
inductive JSValue where
  | undefined
  | null
  | boolean (b : Bool)
  | num (n : Int)
  | str (s : String)
  | bytes (bs : List Nat)
  | bin (content : JSValue)
  | blob
  | obj (id : Nat) (fields : List (String × JSValue))
  | arr (elems : List JSValue)
  | tsV1 (data : JSValue) (convertPrimitive : Bool)
  | tsV2 (data : JSValue) (convertPrimitive : Bool)

/-- JavaScript truthiness of a value (undefined, null, false, 0 and the
empty string are falsy; objects, arrays and byte buffers are truthy). -/
def truthy : JSValue → Bool
  | .undefined => false
  | .null => false
  | .boolean b => b
  | .num n => decide (n ≠ 0)
  | .str s => decide (s ≠ "")
  | _ => true

/-- First-occurrence association-list lookup, the model of reading an own
property of a JavaScript object. -/
def lookupField : List (String × JSValue) → String → Option JSValue
  | [], _ => none
  | (k, v) :: rest, key => if k = key then some v else lookupField rest key

/-- Property write on an object's field list: the first entry with the given
key is replaced in place (JavaScript objects have unique keys); a missing
key is appended, as property-creation order dictates. -/
def setKey : List (String × JSValue) → String → JSValue → List (String × JSValue)
  | [], key, v => [(key, v)]
  | (k, w) :: rest, key, v =>
    if k = key then (key, v) :: rest else (k, w) :: setKey rest key v

/-- JavaScript property read data[key].  Reading a property of null or
undefined throws a TypeError; reading a missing property of an object, or
any property of another value, yields undefined (built-in properties such
as length are not modelled: no code path in this module reads them). -/
def getField (v : JSValue) (key : String) : Except JSErr JSValue :=
  match v with
  | .undefined =>
    .error (.typeError ("Cannot read properties of undefined (reading " ++ key ++ ")"))
  | .null =>
    .error (.typeError ("Cannot read properties of null (reading " ++ key ++ ")"))
  | .obj _ fields => .ok ((lookupField fields key).getD .undefined)
  | _ => .ok .undefined

/-- Total variant of getField for use in theorem statements about objects
(where the read cannot throw): a failed read is collapsed to undefined. -/
def getFieldD (v : JSValue) (key : String) : JSValue :=
  match getField v key with
  | .ok x => x
  | .error _ => .undefined

/-- JavaScript property assignment data[key] = v.  Only ever reached on
plain objects in this module (the guarding conditions are falsy on every
other value); the object keeps its identity and its field list is updated. -/
def setField (v : JSValue) (key : String) (x : JSValue) : JSValue :=
  match v with
  | .obj id fields => .obj id (setKey fields key x)
  | other => other

/-- Strict equality test v === 's' against a string literal, as used by the
version check and the switch cases of the source. -/
def jsStrictEqStr (v : JSValue) (s : String) : Bool :=
  match v with
  | .str t => decide (t = s)
  | _ => false

/-- Allocation id of an object value (the object-identity model); 0 for
non-objects. -/
def objId : JSValue → Nat
  | .obj id _ => id
  | _ => 0

/-- Field list of an object value; empty for non-objects (spreading a
non-object contributes no own enumerable properties; the string case,
which would contribute index properties, is unreachable in this module). -/
def objFields : JSValue → List (String × JSValue)
  | .obj _ fields => fields
  | _ => []

/-- Object spread followed by literal property overrides, the model of
expressions of the shape \x7b...data, k1: v1, k2: v2\x7d: a fresh object
whose fields are those of data with each override applied in order. -/
def spreadWith (v : JSValue) (extra : List (String × JSValue)) : JSValue :=
  .obj 0 (extra.foldl (fun fs kv => setKey fs kv.1 kv.2) (objFields v))

/-- Values reachable by the one-level for-in recursion of decode: the field
values of an object, the elements of an array (for-in over an array
enumerates its indices), nothing for other values. -/
def jsFieldValues : JSValue → List JSValue
  | .obj _ fields => fields.map (fun kv => kv.2)
  | .arr elems => elems
  | _ => []

/-- Character-level model of the JavaScript string split s.split('/'):
the list of '/'-free segments of the character list, always nonempty. -/
def splitSlash : List Char → List (List Char)
  | [] => [[]]
  | c :: rest =>
    match splitSlash rest with
    | [] => [[c]]
    | g :: gs => if c = '/' then [] :: g :: gs else (c :: g) :: gs

/-- Character-level model of parts.join('/'): interleave '/' between the
segments. -/
def joinSlash : List (List Char) → List Char
  | [] => []
  | [g] => g
  | g :: gs => g ++ '/' :: joinSlash gs

/-- String form of s.split('/'). -/
def jsSplitSlash (s : String) : List String :=
  (splitSlash s.data).map String.mk

/-- String form of parts.join('/'). -/
def jsJoinSlash (parts : List String) : String :=
  String.mk (joinSlash (parts.map String.data))

/-- Model of the isJSON helper of the source: the first and last byte of
the buffer, read as characters (an out-of-range index reads as undefined,
which String.fromCharCode maps to the NUL character), must be a matching
brace or bracket pair. -/
def isJSON (encodedString : List Nat) : Bool :=
  let firstChar := Char.ofNat (encodedString.headD 0)
  let lastChar := Char.ofNat (encodedString.getLastD 0)
  (firstChar = '{' && lastChar = '}') || (firstChar = '[' && lastChar = ']')

/-- Modelled from the spec: the platform TextDecoder('utf8').decode built-in,
restricted to single-byte code points (every payload exercised by the
claims is ASCII; a lead byte of a multi-byte sequence is collapsed to the
replacement character rather than decoded). -/
def utf8Decode (bs : List Nat) : String :=
  String.mk (bs.map (fun b => if b < 128 then Char.ofNat b else '�'))

/-- Whitespace as skipped by JSON parsing. -/
def jsonWs (c : Char) : Bool :=
  c = ' ' || c = '\t' || c = '\n' || c = '\r'

/-- String-literal body scanner for the JSON model: consumes characters up
to the closing quote, handling the single-character escapes (the \u escape
is outside the modelled fragment; no claim exercises it). -/
def jsonStringAux : List Char → List Char → Except JSErr (String × List Char)
  | [], _ => .error (.syntaxError "Unterminated string in JSON")
  | c :: rest, acc =>
    if c = '"' then .ok (String.mk acc.reverse, rest)
    else if c = '\\' then
      match rest with
      | [] => .error (.syntaxError "Unterminated string in JSON")
      | e :: rest2 =>
        if e = '"' then jsonStringAux rest2 ('"' :: acc)
        else if e = '\\' then jsonStringAux rest2 ('\\' :: acc)
        else if e = '/' then jsonStringAux rest2 ('/' :: acc)
        else if e = 'n' then jsonStringAux rest2 ('\n' :: acc)
        else if e = 't' then jsonStringAux rest2 ('\t' :: acc)
        else if e = 'r' then jsonStringAux rest2 ('\r' :: acc)
        else .error (.syntaxError "Bad escaped character in JSON")
    else jsonStringAux rest (c :: acc)

/-- Integer-literal scanner for the JSON model (fractions and exponents are
outside the modelled fragment; no claim exercises them). -/
def jsonNumber (cs : List Char) : Except JSErr (JSValue × List Char) :=
  let (neg, cs1) := match cs with
    | '-' :: rest => (true, rest)
    | _ => (false, cs)
  let ds := cs1.takeWhile Char.isDigit
  let rest := cs1.dropWhile Char.isDigit
  if ds.isEmpty then .error (.syntaxError "Unexpected token in JSON")
  else
    match rest with
    | '.' :: _ => .error (.syntaxError "Fractional numbers outside modelled JSON fragment")
    | 'e' :: _ => .error (.syntaxError "Exponents outside modelled JSON fragment")
    | 'E' :: _ => .error (.syntaxError "Exponents outside modelled JSON fragment")
    | _ =>
      let n : Int := ds.foldl (fun n c => n * 10 + (Int.ofNat (c.toNat - 48))) 0
      .ok (.num (if neg then -n else n), rest)

/-- Pending work items of the fuel-indexed JSON parser: a value, the member
list of an object (with the members parsed so far), or the element list of
an array. -/
inductive JSONTask where
  | value
  | members (acc : List (String × JSValue))
  | elems (acc : List JSValue)

/-- Modelled from the spec: the platform JSON.parse built-in (the "parse
directly as JSON text" step), as a fuel-indexed recursive-descent parser.
Parsed objects are fresh allocations (id 0).  The fuel is an upper bound on
recursion depth only; jsonParse below supplies more fuel than any input can
consume, so exhaustion is unreachable. -/
def jsonStep : Nat → JSONTask → List Char → Except JSErr (JSValue × List Char)
  | 0, _, _ => .error (.syntaxError "JSON input too deeply nested for fuel bound")
  | fuel + 1, .value, cs =>
    match cs.dropWhile jsonWs with
    | [] => .error (.syntaxError "Unexpected end of JSON input")
    | c :: rest =>
      if c = '{' then
        match rest.dropWhile jsonWs with
        | '}' :: rest2 => .ok (.obj 0 [], rest2)
        | rest2 => jsonStep fuel (.members []) rest2
      else if c = '[' then
        match rest.dropWhile jsonWs with
        | ']' :: rest2 => .ok (.arr [], rest2)
        | rest2 => jsonStep fuel (.elems []) rest2
      else if c = '"' then
        match jsonStringAux rest [] with
        | .ok (s, rest2) => .ok (.str s, rest2)
        | .error e => .error e
      else if c = 't' then
        match rest with
        | 'r' :: 'u' :: 'e' :: rest2 => .ok (.boolean true, rest2)
        | _ => .error (.syntaxError "Unexpected token in JSON")
      else if c = 'f' then
        match rest with
        | 'a' :: 'l' :: 's' :: 'e' :: rest2 => .ok (.boolean false, rest2)
        | _ => .error (.syntaxError "Unexpected token in JSON")
      else if c = 'n' then
        match rest with
        | 'u' :: 'l' :: 'l' :: rest2 => .ok (.null, rest2)
        | _ => .error (.syntaxError "Unexpected token in JSON")
      else jsonNumber (c :: rest)
  | fuel + 1, .members acc, cs =>
    match cs.dropWhile jsonWs with
    | '"' :: rest =>
      (match jsonStringAux rest [] with
       | .error e => .error e
       | .ok (key, rest2) =>
         match rest2.dropWhile jsonWs with
         | ':' :: rest3 =>
           (match jsonStep fuel .value rest3 with
            | .error e => .error e
            | .ok (v, rest4) =>
              match rest4.dropWhile jsonWs with
              | ',' :: rest5 => jsonStep fuel (.members (acc ++ [(key, v)])) rest5
              | '}' :: rest5 => .ok (.obj 0 (acc ++ [(key, v)]), rest5)
              | _ => .error (.syntaxError "Expected , or closing brace in JSON object"))
         | _ => .error (.syntaxError "Expected : in JSON object"))
    | _ => .error (.syntaxError "Expected string key in JSON object")
  | fuel + 1, .elems acc, cs =>
    match jsonStep fuel .value cs with
    | .error e => .error e
    | .ok (v, rest) =>
      match rest.dropWhile jsonWs with
      | ',' :: rest2 => jsonStep fuel (.elems (acc ++ [v])) rest2
      | ']' :: rest2 => .ok (.arr (acc ++ [v]), rest2)
      | _ => .error (.syntaxError "Expected , or closing bracket in JSON array")

/-- Modelled from the spec: JSON.parse on a whole string — parse one value
and require only whitespace to remain. -/
def jsonParse (s : String) : Except JSErr JSValue :=
  match jsonStep (s.data.length + 2) .value s.data with
  | .error e => .error e
  | .ok (v, rest) =>
    match rest.dropWhile jsonWs with
    | [] => .ok v
    | _ => .error (.syntaxError "Unexpected trailing characters in JSON")

/-- Modelled from the spec: the external binary codec's recognizer
isBinaryXVIZ(bytes) -> bool — true exactly on a buffer carrying the
binary-protocol magic. -/
def isBinaryXVIZ : JSValue → Bool
  | .bin _ => true
  | _ => false

/-- Modelled from the spec: the external binary codec
decodeBinaryProtocol(bytes) -> StructuralValue — yields the structural
content of a recognized buffer (identity on anything else; only called
behind the recognizer). -/
def parseBinaryXVIZ : JSValue → JSValue
  | .bin content => content
  | v => v

/-- Uint8Array membership test (instanceof Uint8Array): both kinds of byte
buffer are Uint8Arrays. -/
def isUint8Array : JSValue → Bool
  | .bytes _ => true
  | .bin _ => true
  | _ => false

/-- Source decode(data, recursive) specialized to recursive = false: the
falsy, binary-protocol and JSON-byte branches; every other value is
returned unchanged (the for-in branch is guarded by the recursive flag).
This is the function applied to each field by the one-level recursion. -/
def decodeNonRec (data : JSValue) : Except JSErr JSValue :=
  if !truthy data then .ok data
  else if isBinaryXVIZ data then .ok (parseBinaryXVIZ data)
  else
    match data with
    | .bytes bs => if isJSON bs then jsonParse (utf8Decode bs) else .ok data
    | _ => .ok data

/-- The for-in loop body of decode over an object's fields: each field
value is reassigned to its one-level decode, in order. -/
def decodeEntries : List (String × JSValue) → Except JSErr (List (String × JSValue))
  | [] => .ok []
  | (k, v) :: rest =>
    match decodeNonRec v with
    | .error e => .error e
    | .ok v2 =>
      match decodeEntries rest with
      | .error e => .error e
      | .ok rest2 => .ok ((k, v2) :: rest2)

/-- The for-in loop of decode over an array (for-in enumerates the
indices, so each element is reassigned to its one-level decode). -/
def decodeElems : List JSValue → Except JSErr (List JSValue)
  | [] => .ok []
  | v :: rest =>
    match decodeNonRec v with
    | .error e => .error e
    | .ok v2 =>
      match decodeElems rest with
      | .error e => .error e
      | .ok rest2 => .ok (v2 :: rest2)

/-- Source decode(data, recursive): falsy data is ignored; a recognized
binary-protocol buffer goes to the external codec; a Uint8Array with JSON
bounds is text-decoded and JSON-parsed; otherwise, when recursive is set
and the value is an object, the for-in loop rewrites each field in place
(one level only) and the same object is returned.  A Uint8Array failing
the JSON bounds check reaches the for-in branch, which rewrites each byte
to itself, so it comes back unchanged.  The in-place updates are rendered
by returning an object with the same id and the updated field list. -/
def decode (data : JSValue) (recursive : Bool) : Except JSErr JSValue :=
  if !truthy data then .ok data
  else if isBinaryXVIZ data then .ok (parseBinaryXVIZ data)
  else
    match data with
    | .bytes bs => if isJSON bs then jsonParse (utf8Decode bs) else .ok data
    | .obj id fields =>
      if recursive then
        match decodeEntries fields with
        | .error e => .error e
        | .ok fields2 => .ok (.obj id fields2)
      else .ok data
    | .arr elems =>
      if recursive then
        match decodeElems elems with
        | .error e => .error e
        | .ok elems2 => .ok (.arr elems2)
      else .ok data
    | _ => .ok data

/-- Source unpackEnvelope(data): split data.type on '/', take segment 0 as
the namespace, rejoin the remaining segments as the inner type, and pass
data.data through unchanged.  Calling .split on a non-string type value
throws a TypeError, as in JavaScript. -/
def unpackEnvelope (data : JSValue) : Except JSErr JSValue :=
  match getField data "type" with
  | .error e => .error e
  | .ok t =>
    match t with
    | .str s =>
      let parts := jsSplitSlash s
      (match getField data "data" with
       | .error e => .error e
       | .ok d =>
         .ok (.obj 0 [("namespace", .str (parts.headD "")),
                      ("type", .str (jsJoinSlash (parts.drop 1))),
                      ("data", d)]))
    | _ => .error (.typeError "data.type.split is not a function")

/-- Source isEnvelope(data): data.type && data.data, with JavaScript
short-circuiting and truthiness. -/
def isEnvelope (data : JSValue) : Except JSErr Bool :=
  match getField data "type" with
  | .error e => .error e
  | .ok t =>
    if truthy t then
      match getField data "data" with
      | .error e => .error e
      | .ok d => .ok (truthy d)
    else .ok false

namespace LOG_STREAM_MESSAGE

/-- Modelled from the spec: the canonical uppercase METADATA tag of the
LOG_STREAM_MESSAGE enumeration (the constants module is not under src). -/
def METADATA : String := "METADATA"

/-- Modelled from the spec: the canonical uppercase ERROR tag. -/
def ERROR : String := "ERROR"

/-- Modelled from the spec: the canonical uppercase DONE tag. -/
def DONE : String := "DONE"

end LOG_STREAM_MESSAGE

/-- Modelled from the spec: the external metadata parser
decodeMetadata(StructuralValue) -> MetadataRecord, abstracted as a fresh
record wrapping its input; the router only spreads this record and
overrides its type tag, so no claim depends on its internals. -/
def parseLogMetadata (data : JSValue) : JSValue :=
  .obj 0 [("logMetadata", data)]

/-- Options object accepted by the exposed entry points; convertPrimitive
defaults to false (reading the key off a missing options object yields a
falsy value). -/
structure Opts where
  convertPrimitive : Bool := false

/-- Modelled from the spec: the process-wide XVIZ settings read by
getXVIZSettings(), carrying the active protocol major version.  Following
the spec's dependency-injection note, the settings are threaded as an
explicit argument; each call reads them exactly as the source reads the
global. -/
structure XVIZSettings where
  currentMajorVersion : Int

/-- Source parseTimesliceData(data, convertPrimitive): version gate — the
configured major version selects the v1 decoder exactly when it equals 1,
and the v2 decoder otherwise. -/
def parseTimesliceData (data : JSValue) (convertPrimitive : Bool)
    (settings : XVIZSettings) : JSValue :=
  if settings.currentMajorVersion = 1 then .tsV1 data convertPrimitive
  else .tsV2 data convertPrimitive

/-- Source checkV2MetadataFields(data): when data.streams is truthy and
data.version is truthy and strictly equals the string 2.0.0, assign
data.type = 'metadata' in place; otherwise leave data untouched. -/
def checkV2MetadataFields (data : JSValue) : Except JSErr JSValue :=
  match getField data "streams" with
  | .error e => .error e
  | .ok s =>
    if truthy s then
      match getField data "version" with
      | .error e => .error e
      | .ok ver =>
        if truthy ver && jsStrictEqStr ver "2.0.0" then
          .ok (setField data "type" (.str "metadata"))
        else .ok data
    else .ok data

/-- The switch scrutinee data.type || data.message || data.update_type:
the first truthy of the three fields, with the last one returned whether
truthy or not. -/
def discriminator (data : JSValue) : Except JSErr JSValue :=
  match getField data "type" with
  | .error e => .error e
  | .ok t =>
    if truthy t then .ok t
    else
      match getField data "message" with
      | .error e => .error e
      | .ok m =>
        if truthy m then .ok m
        else getField data "update_type"

/-- Source parseStreamLogData(data, opts): apply the v2-metadata fixup,
then switch on the discriminator.  The snapshot and incremental cases fall
through to the default, so the final branch covers them together with any
unrecognized or missing discriminator. -/
def parseStreamLogData (data : JSValue) (opts : Opts)
    (settings : XVIZSettings) : Except JSErr JSValue :=
  match checkV2MetadataFields data with
  | .error e => .error e
  | .ok data =>
    match discriminator data with
    | .error e => .error e
    | .ok d =>
      if jsStrictEqStr d "metadata" then
        .ok (spreadWith (parseLogMetadata data)
              [("type", .str LOG_STREAM_MESSAGE.METADATA)])
      else if jsStrictEqStr d "error" then
        .ok (spreadWith data
              [("message", .str "Stream server error"),
               ("type", .str LOG_STREAM_MESSAGE.ERROR)])
      else if jsStrictEqStr d "done" then
        .ok (spreadWith data [("type", .str LOG_STREAM_MESSAGE.DONE)])
      else if jsStrictEqStr d "ack" then
        .ok .null
      else
        .ok (parseTimesliceData data opts.convertPrimitive settings)

/-- The body of the try block of parseStreamDataMessage: decode the raw
payload (JSON.parse for a string, decode(message, true) otherwise), then
the envelope check — an envelope in the xviz namespace is unwrapped and
its inner data parsed, a foreign-namespace envelope yields no result
(modelled as ok none), anything else is parsed directly. -/
def parseStreamDataBody (message : JSValue) (opts : Opts)
    (settings : XVIZSettings) : Except JSErr (Option JSValue) :=
  match (match message with
         | .str s => jsonParse s
         | _ => decode message true) with
  | .error e => .error e
  | .ok data =>
    match isEnvelope data with
    | .error e => .error e
    | .ok env =>
      if env then
        match unpackEnvelope data with
        | .error e => .error e
        | .ok unpacked =>
          match getField unpacked "namespace" with
          | .error e => .error e
          | .ok ns =>
            if jsStrictEqStr ns "xviz" then
              match getField unpacked "data" with
              | .error e => .error e
              | .ok inner =>
                (match parseStreamLogData inner opts settings with
                 | .error e => .error e
                 | .ok r => .ok (some r))
            else .ok none
      else
        match parseStreamLogData data opts settings with
        | .error e => .error e
        | .ok r => .ok (some r)

/-- Observable outcome of one parseStreamDataMessage call, rendering the
callback protocol: result r means onResult was invoked exactly once with r
(and onError never), err e means onError was invoked exactly once with e
(and onResult never), video means the call was delegated whole to the
external video handler, suppressed means the call returned without
invoking either callback. -/
inductive Outcome where
  | result (r : JSValue)
  | err (e : JSErr)
  | video
  | suppressed

/-- Source parseStreamDataMessage(message, onResult, onError, opts): a Blob
is delegated to the external video handler before the try block; otherwise
the try body runs and its exception, if any, is delivered to onError. -/
def parseStreamDataMessage (message : JSValue) (opts : Opts)
    (settings : XVIZSettings) : Outcome :=
  match message with
  | .blob => .video
  | _ =>
    match parseStreamDataBody message opts settings with
    | .ok (some r) => .result r
    | .ok none => .suppressed
    | .error e => .err e

/-- Characterization of the silent no-op case, read off the same pipeline
steps the source performs: the decoded payload is an envelope whose
namespace segment differs from xviz, with no exception up to that point. -/
def foreignEnvelope (message : JSValue) : Bool :=
  match (match message with
         | .str s => jsonParse s
         | _ => decode message true) with
  | .error _ => false
  | .ok data =>
    match isEnvelope data with
    | .error _ => false
    | .ok env =>
      if env then
        match unpackEnvelope data with
        | .error _ => false
        | .ok unpacked =>
          match getField unpacked "namespace" with
          | .error _ => false
          | .ok ns => !jsStrictEqStr ns "xviz"
      else false

theorem lookupField_setKey_self (fs : List (String × JSValue)) (k : String) (v : JSValue) :
    lookupField (setKey fs k v) k = some v := by
  induction fs with
  | nil => simp [setKey, lookupField]
  | cons kv rest ih =>
    obtain ⟨k0, v0⟩ := kv
    by_cases h : k0 = k
    · simp [setKey, h, lookupField]
    · simp [setKey, h, lookupField, ih]

theorem lookupField_setKey_ne (fs : List (String × JSValue)) (k k2 : String) (v : JSValue)
    (h : k2 ≠ k) : lookupField (setKey fs k v) k2 = lookupField fs k2 := by
  induction fs with
  | nil => simp [setKey, lookupField, Ne.symm h]
  | cons kv rest ih =>
    obtain ⟨k0, v0⟩ := kv
    by_cases h0 : k0 = k
    · have hk0 : ¬k0 = k2 := by rw [h0]; exact Ne.symm h
      simp [setKey, h0, lookupField, Ne.symm h, hk0]
    · simp [setKey, h0, lookupField, ih]

theorem jsStrictEqStr_eq_true_iff (v : JSValue) (s : String) :
    jsStrictEqStr v s = true ↔ v = .str s := by
  cases v <;> simp [jsStrictEqStr]

theorem splitSlash_ne_nil (l : List Char) : splitSlash l ≠ [] := by
  induction l with
  | nil => simp [splitSlash]
  | cons c rest ih =>
    cases h : splitSlash rest with
    | nil => exact absurd h ih
    | cons g gs =>
      by_cases hc : c = '/' <;> simp [splitSlash, h, hc]

theorem joinSlash_cons (c : Char) (g : List Char) (gs : List (List Char)) :
    joinSlash ((c :: g) :: gs) = c :: joinSlash (g :: gs) := by
  cases gs with
  | nil => rfl
  | cons g2 gs2 => simp [joinSlash]

theorem joinSlash_splitSlash (l : List Char) : joinSlash (splitSlash l) = l := by
  induction l with
  | nil => rfl
  | cons c rest ih =>
    cases h : splitSlash rest with
    | nil => exact absurd h (splitSlash_ne_nil rest)
    | cons g gs =>
      rw [h] at ih
      by_cases hc : c = '/'
      · subst hc
        simp only [splitSlash, h, if_pos rfl]
        simpa [joinSlash] using ih
      · simp only [splitSlash, h, if_neg hc, joinSlash_cons]
        rw [ih]

theorem splitSlash_headD (l : List Char) :
    (splitSlash l).headD [] = l.takeWhile (fun c => !(c = '/')) := by
  induction l with
  | nil => rfl
  | cons c rest ih =>
    cases h : splitSlash rest with
    | nil => exact absurd h (splitSlash_ne_nil rest)
    | cons g gs =>
      rw [h] at ih
      by_cases hc : c = '/'
      · subst hc
        simp [splitSlash, h, List.takeWhile_cons]
      · simp only [splitSlash, h, if_neg hc, List.headD, List.takeWhile_cons]
        simp only [List.headD] at ih
        simp [hc, ih]

theorem splitSlash_two_le (l : List Char) (h : '/' ∈ l) :
    2 ≤ (splitSlash l).length := by
  induction l with
  | nil => cases h
  | cons c rest ih =>
    cases hs : splitSlash rest with
    | nil => exact absurd hs (splitSlash_ne_nil rest)
    | cons g gs =>
      by_cases hc : c = '/'
      · have h2 : splitSlash (c :: rest) = [] :: g :: gs := by
          simp [splitSlash, hs, hc]
        rw [h2]
        simp only [List.length_cons]
        omega
      · have hmem : '/' ∈ rest := by
          rcases List.mem_cons.mp h with h1 | h1
          · exact absurd h1.symm hc
          · exact h1
        have hlen := ih hmem
        rw [hs] at hlen
        simp only [List.length_cons] at hlen
        have h2 : splitSlash (c :: rest) = (c :: g) :: gs := by
          simp [splitSlash, hs, hc]
        rw [h2]
        simp only [List.length_cons]
        omega

theorem decodeNonRec_not_uint8 (x : JSValue) (h : isUint8Array x = false) :
    decodeNonRec x = .ok x := by
  cases x <;> simp_all [isUint8Array, decodeNonRec, truthy, isBinaryXVIZ]

theorem decodeEntries_of_fixed (fs : List (String × JSValue))
    (h : ∀ kv ∈ fs, decodeNonRec kv.2 = .ok kv.2) : decodeEntries fs = .ok fs := by
  induction fs with
  | nil => rfl
  | cons kv rest ih =>
    obtain ⟨k, v⟩ := kv
    have h1 : decodeNonRec v = .ok v := h (k, v) (List.mem_cons_self _ _)
    have h2 : decodeEntries rest = .ok rest :=
      ih (fun kv hkv => h kv (List.mem_cons_of_mem _ hkv))
    simp [decodeEntries, h1, h2]

theorem decodeElems_of_fixed (es : List JSValue)
    (h : ∀ x ∈ es, decodeNonRec x = .ok x) : decodeElems es = .ok es := by
  induction es with
  | nil => rfl
  | cons v rest ih =>
    have h1 : decodeNonRec v = .ok v := h v (List.mem_cons_self _ _)
    have h2 : decodeElems rest = .ok rest :=
      ih (fun x hx => h x (List.mem_cons_of_mem _ hx))
    simp [decodeElems, h1, h2]

theorem decodeEntries_forall2 (fs fs2 : List (String × JSValue))
    (h : decodeEntries fs = .ok fs2) :
    List.Forall₂ (fun kv kv2 => kv2.1 = kv.1 ∧ decodeNonRec kv.2 = .ok kv2.2) fs fs2 := by
  induction fs generalizing fs2 with
  | nil =>
    simp [decodeEntries] at h
    subst h
    exact List.Forall₂.nil
  | cons kv rest ih =>
    obtain ⟨k, v⟩ := kv
    simp only [decodeEntries] at h
    cases h1 : decodeNonRec v with
    | error e => rw [h1] at h; cases h
    | ok v2 =>
      rw [h1] at h
      cases h2 : decodeEntries rest with
      | error e => rw [h2] at h; cases h
      | ok rest2 =>
        rw [h2] at h
        cases h
        exact List.Forall₂.cons ⟨rfl, h1⟩ (ih rest2 h2)

theorem checkV2MetadataFields_obj (id : Nat) (fs : List (String × JSValue)) :
    checkV2MetadataFields (.obj id fs) = .ok (.obj id fs)
    ∨ checkV2MetadataFields (.obj id fs) = .ok (.obj id (setKey fs "type" (.str "metadata"))) := by
  simp only [checkV2MetadataFields, getField]
  split
  · split
    · right; rfl
    · left; rfl
  · left; rfl

theorem string_data_mk (l : List Char) : (String.mk l).data = l := rfl

theorem map_data_mk (l : List (List Char)) :
    l.map (String.data ∘ String.mk) = l := by
  induction l with
  | nil => rfl
  | cons a t ih =>
    rw [List.map_cons, ih]
    rfl

/-- C4: for every value with a slash-delimited type string and a data
field, unpackEnvelope returns the segment before the first slash as the
namespace, the remaining segments rejoined with a slash as the type, and
the data field unchanged; re-wrapping namespace ++ "/" ++ type reproduces
the original type string. -/
theorem c4_unpackEnvelope_roundtrip (v : JSValue) (s : String) (d : JSValue)
    (htype : getField v "type" = .ok (.str s))
    (hdata : getField v "data" = .ok d)
    (hslash : '/' ∈ s.data) :
    ∃ ns ty : String,
      unpackEnvelope v
        = .ok (.obj 0 [("namespace", .str ns), ("type", .str ty), ("data", d)])
      ∧ ns.data = s.data.takeWhile (fun c => !(c = '/'))
      ∧ ns ++ "/" ++ ty = s := by
  cases hsp : splitSlash s.data with
  | nil => exact absurd hsp (splitSlash_ne_nil s.data)
  | cons g gs =>
    have hgs : gs ≠ [] := by
      have h2 := splitSlash_two_le s.data hslash
      rw [hsp] at h2
      intro he
      subst he
      simp at h2
    obtain ⟨g2, gs2, rfl⟩ : ∃ g2 gs2, gs = g2 :: gs2 := by
      cases gs with
      | nil => exact absurd rfl hgs
      | cons g2 gs2 => exact ⟨g2, gs2, rfl⟩
    have hjoin : g ++ '/' :: joinSlash (g2 :: gs2) = s.data := by
      have h0 : joinSlash (g :: g2 :: gs2) = s.data := by
        rw [← hsp, joinSlash_splitSlash]
      simpa [joinSlash] using h0
    have hparts : jsSplitSlash s = String.mk g :: String.mk g2 :: (gs2.map String.mk) := by
      simp [jsSplitSlash, hsp]
    refine ⟨String.mk g, String.mk (joinSlash (g2 :: gs2)), ?_, ?_, ?_⟩
    · simp only [unpackEnvelope, htype, hdata, hparts, List.headD_cons,
        List.drop_succ_cons, List.drop_zero, jsJoinSlash, List.map_cons, List.map_map]
      simp [map_data_mk]
    · have hh := splitSlash_headD s.data
      rw [hsp] at hh
      simp only [List.headD_cons] at hh
      exact hh
    · show String.mk ((g ++ ['/']) ++ joinSlash (g2 :: gs2)) = s
      rw [List.append_assoc, List.singleton_append, hjoin]

/-- C5 counterexample: decoding a structural object whose field holds a
JSON byte buffer returns the very same object (same identity, so the
result aliases the raw payload) with that field changed (so the input
object's fields are not unchanged) — refuting the claim that decode never
mutates the payload and never aliases it. -/
theorem c5_decode_mutates_counterexample :
    decode (.obj 5 [("x", .bytes [123, 125])]) true = .ok (.obj 5 [("x", .obj 0 [])])
    ∧ objId (.obj 5 [("x", .obj 0 [])]) = objId (.obj 5 [("x", .bytes [123, 125])])
    ∧ getFieldD (.obj 5 [("x", .obj 0 [])]) "x"
        ≠ getFieldD (.obj 5 [("x", .bytes [123, 125])]) "x" := by
  refine ⟨rfl, rfl, ?_⟩
  intro h
  exact JSValue.noConfusion h

/-- C5 amended: on a structural object, decode returns the input object
itself (same identity — the raw payload is aliased) with each top-level
field rewritten in place to its one-level decode. -/
theorem c5_decode_in_place (id : Nat) (fields : List (String × JSValue)) (v : JSValue)
    (h : decode (.obj id fields) true = .ok v) :
    objId v = id
    ∧ ∃ fields2, v = .obj id fields2
        ∧ List.Forall₂ (fun kv kv2 => kv2.1 = kv.1 ∧ decodeNonRec kv.2 = .ok kv2.2)
            fields fields2 := by
  have h' : (match decodeEntries fields with
      | .error e => (Except.error e : Except JSErr JSValue)
      | .ok fields2 => .ok (.obj id fields2)) = .ok v := by
    simpa [decode, truthy, isBinaryXVIZ] using h
  cases he : decodeEntries fields with
  | error e => rw [he] at h'; cases h'
  | ok fields2 =>
    rw [he] at h'
    cases h'
    exact ⟨rfl, fields2, rfl, decodeEntries_forall2 _ _ he⟩

/-- C6: the recursive decode goes exactly one level deep — a JSON byte
buffer sitting directly in a field of the payload is decoded, while the
same buffer nested one object deeper is left as raw bytes. -/
theorem c6_decode_one_level (k1 k2 : String) (bs : List Nat) (i j : Nat) (jv : JSValue)
    (hjson : isJSON bs = true)
    (hparse : jsonParse (utf8Decode bs) = .ok jv) :
    decode (.obj i [(k1, .bytes bs)]) true = .ok (.obj i [(k1, jv)])
    ∧ decode (.obj i [(k1, .obj j [(k2, .bytes bs)])]) true
        = .ok (.obj i [(k1, .obj j [(k2, .bytes bs)])]) := by
  constructor
  · simp [decode, decodeEntries, decodeNonRec, truthy, isBinaryXVIZ, hjson, hparse]
  · simp [decode, decodeEntries, decodeNonRec, truthy, isBinaryXVIZ]

/-- C9: decode is the identity on an already-decoded structural value —
truthy, not a binary-protocol payload, not a Uint8Array, and with no
Uint8Array fields (object fields or array elements) — so no double
JSON-parsing occurs. -/
theorem c9_decode_idempotent (v : JSValue)
    (ht : truthy v = true)
    (hb : isBinaryXVIZ v = false)
    (hu : isUint8Array v = false)
    (hf : ∀ x ∈ jsFieldValues v, isUint8Array x = false) :
    decode v true = .ok v := by
  cases v with
  | undefined => cases ht
  | null => cases ht
  | bytes bs => cases hu
  | bin c => cases hu
  | obj id fields =>
    have he : decodeEntries fields = .ok fields := by
      refine decodeEntries_of_fixed fields (fun kv hkv => ?_)
      refine decodeNonRec_not_uint8 kv.2 (hf kv.2 ?_)
      simp only [jsFieldValues]
      exact List.mem_map_of_mem _ hkv
    simp [decode, truthy, isBinaryXVIZ, he]
  | arr elems =>
    have he : decodeElems elems = .ok elems := by
      refine decodeElems_of_fixed elems (fun x hx => ?_)
      exact decodeNonRec_not_uint8 x (hf x (by simpa [jsFieldValues] using hx))
    simp [decode, truthy, isBinaryXVIZ, he]
  | boolean b => simp [decode, isBinaryXVIZ]
  | num n => simp [decode, isBinaryXVIZ]
  | str s => simp [decode, isBinaryXVIZ]
  | blob => rfl
  | tsV1 d f => rfl
  | tsV2 d f => rfl

/-- C1 counterexample: a value carrying a truthy streams field, version
"2.0.0" AND an explicit type "done" is still rewritten to metadata — the
fixup does not require the type field to be absent, so the value is not
dispatched under its explicit type. -/
theorem c1_fixup_overwrites_explicit_type :
    parseStreamLogData
        (.obj 7 [("streams", .obj 8 []), ("version", .str "2.0.0"), ("type", .str "done")])
        {} ⟨2⟩
      = .ok (.obj 0
          [("logMetadata",
            .obj 7 [("streams", .obj 8 []), ("version", .str "2.0.0"), ("type", .str "metadata")]),
           ("type", .str "METADATA")])
    ∧ (JSValue.str "METADATA") ≠ .str LOG_STREAM_MESSAGE.DONE := by
  refine ⟨rfl, ?_⟩
  intro h
  exact absurd (JSValue.str.inj h) (by decide)

/-- C1 amended: the fixup synthesizes type = "metadata" exactly when the
value has a truthy streams field and a version field strictly equal to
"2.0.0" — regardless of any explicit type field, which it overwrites
(first conjunct: under the condition the value dispatches as metadata;
second conjunct: without the condition the fixup leaves the value, and
hence any explicit type, untouched). -/
theorem c1_fixup_condition (id : Nat) (fields : List (String × JSValue))
    (opts : Opts) (s : XVIZSettings) :
    ((truthy (getFieldD (.obj id fields) "streams") = true
        ∧ getFieldD (.obj id fields) "version" = .str "2.0.0") →
      ∃ r, parseStreamLogData (.obj id fields) opts s = .ok r
        ∧ getFieldD r "type" = .str LOG_STREAM_MESSAGE.METADATA)
    ∧ (¬(truthy (getFieldD (.obj id fields) "streams") = true
        ∧ getFieldD (.obj id fields) "version" = .str "2.0.0") →
      checkV2MetadataFields (.obj id fields) = .ok (.obj id fields)) := by
  constructor
  · rintro ⟨hst, hver⟩
    simp only [getFieldD, getField] at hst hver
    have hcv : checkV2MetadataFields (.obj id fields)
        = .ok (.obj id (setKey fields "type" (.str "metadata"))) := by
      simp only [checkV2MetadataFields, getField]
      rw [hst]
      simp only [if_true]
      rw [hver]
      rfl
    have hdisc : discriminator (.obj id (setKey fields "type" (.str "metadata")))
        = .ok (.str "metadata") := by
      simp only [discriminator, getField, lookupField_setKey_self]
      rfl
    refine ⟨spreadWith (parseLogMetadata (.obj id (setKey fields "type" (.str "metadata"))))
        [("type", .str LOG_STREAM_MESSAGE.METADATA)], ?_, ?_⟩
    · simp only [parseStreamLogData, hcv, hdisc]
      rfl
    · simp [getFieldD, getField, spreadWith, parseLogMetadata, objFields, setKey, lookupField]
  · intro hnc
    simp only [checkV2MetadataFields, getField]
    cases hst : truthy ((lookupField fields "streams").getD JSValue.undefined) with
    | false => simp
    | true =>
      simp only [if_true]
      cases hj : jsStrictEqStr ((lookupField fields "version").getD JSValue.undefined) "2.0.0" with
      | true =>
        exfalso
        apply hnc
        refine ⟨?_, ?_⟩
        · simpa [getFieldD, getField] using hst
        · have := (jsStrictEqStr_eq_true_iff _ _).mp hj
          simpa [getFieldD, getField] using this
      | false => simp [hj]

/-- C10 counterexample: the number 0 is a falsy non-string raw payload,
yet parseStreamDataMessage does not invoke onError on it — the envelope
check reads properties of 0 without a TypeError and the payload flows to
the (spec-modelled) v2 timeslice decoder, so onResult is invoked. -/
theorem c10_falsy_number_no_error :
    parseStreamDataMessage (.num 0) {} ⟨2⟩ = .result (.tsV2 (.num 0) false)
    ∧ truthy (.num 0) = false :=
  ⟨rfl, rfl⟩

/-- C10 amended: for a null or undefined raw payload, parseStreamDataMessage
invokes onError exactly once (the envelope check dereferences the value and
the resulting TypeError is caught at the call boundary) and never invokes
onResult, even though decode itself returns the payload unchanged. -/
theorem c10_nullish_payload_errors (m : JSValue) (opts : Opts) (s : XVIZSettings)
    (h : m = .null ∨ m = .undefined) :
    (∃ e, parseStreamDataMessage m opts s = .err e) ∧ decode m true = .ok m := by
  rcases h with rfl | rfl
  · exact ⟨⟨.typeError "Cannot read properties of null (reading type)", rfl⟩, rfl⟩
  · exact ⟨⟨.typeError "Cannot read properties of undefined (reading type)", rfl⟩, rfl⟩

/-- C3: the router reads the discriminator with fixed priority — the type
field when truthy, else the message field when truthy, else the
update_type field; in particular a value with both type "done" and
message "metadata" dispatches as done. -/
theorem c3_discriminator_priority (id : Nat) (fields : List (String × JSValue)) :
    discriminator (.obj id fields)
      = .ok (if truthy (getFieldD (.obj id fields) "type")
          then getFieldD (.obj id fields) "type"
          else if truthy (getFieldD (.obj id fields) "message")
          then getFieldD (.obj id fields) "message"
          else getFieldD (.obj id fields) "update_type")
    ∧ parseStreamLogData (.obj 0 [("type", .str "done"), ("message", .str "metadata")]) {} ⟨2⟩
        = .ok (.obj 0 [("type", .str "DONE"), ("message", .str "metadata")]) := by
  constructor
  · simp only [discriminator, getField, getFieldD]
    by_cases h1 : truthy ((lookupField fields "type").getD JSValue.undefined) = true
    · simp [h1]
    · by_cases h2 : truthy ((lookupField fields "message").getD JSValue.undefined) = true
      · simp [h1, h2]
      · simp [h1, h2]
  · rfl

theorem jsStrictEqStr_eq_false_of_ne (v : JSValue) (s : String) (h : v ≠ .str s) :
    jsStrictEqStr v s = false := by
  cases hj : jsStrictEqStr v s with
  | false => rfl
  | true => exact absurd ((jsStrictEqStr_eq_true_iff v s).mp hj) h

theorem discriminator_after_fixup (id : Nat) (fs : List (String × JSValue)) :
    discriminator (.obj id (setKey fs "type" (.str "metadata"))) = .ok (.str "metadata") := by
  simp only [discriminator, getField, lookupField_setKey_self]
  rfl

/-- C7: a structural value whose discriminator resolves to error is
shallow-copied with the message field forcibly overwritten to the fixed
string and the type field set to the canonical ERROR tag, every other
top-level field passing through from the input. -/
theorem c7_error_record_shape (id : Nat) (fields : List (String × JSValue))
    (opts : Opts) (s : XVIZSettings) (v2 r : JSValue)
    (hcv : checkV2MetadataFields (.obj id fields) = .ok v2)
    (hd : discriminator v2 = .ok (.str "error"))
    (hr : parseStreamLogData (.obj id fields) opts s = .ok r) :
    getFieldD r "message" = .str "Stream server error"
    ∧ getFieldD r "type" = .str LOG_STREAM_MESSAGE.ERROR
    ∧ ∀ k, k ≠ "message" → k ≠ "type" → getFieldD r k = getFieldD (.obj id fields) k := by
  rcases checkV2MetadataFields_obj id fields with h | h
  case inr =>
    rw [h] at hcv
    cases hcv
    rw [discriminator_after_fixup] at hd
    exact absurd (JSValue.str.inj (Except.ok.inj hd)) (by decide)
  case inl =>
    rw [h] at hcv
    cases hcv
    simp only [parseStreamLogData, h, hd] at hr
    rw [jsStrictEqStr_eq_false_of_ne _ _ (by intro he; exact absurd (JSValue.str.inj he) (by decide))] at hr
    simp only [Bool.false_eq_true, if_false] at hr
    rw [show jsStrictEqStr (.str "error") "error" = true from rfl] at hr
    simp only [if_true] at hr
    cases hr
    refine ⟨?_, ?_, ?_⟩
    · show getFieldD (.obj 0 (setKey (setKey fields "message" (.str "Stream server error"))
        "type" (.str LOG_STREAM_MESSAGE.ERROR))) "message" = _
      simp only [getFieldD, getField]
      rw [lookupField_setKey_ne _ _ _ _ (by decide), lookupField_setKey_self]
      rfl
    · show getFieldD (.obj 0 (setKey (setKey fields "message" (.str "Stream server error"))
        "type" (.str LOG_STREAM_MESSAGE.ERROR))) "type" = _
      simp only [getFieldD, getField]
      rw [lookupField_setKey_self]
      rfl
    · intro k hk1 hk2
      show getFieldD (.obj 0 (setKey (setKey fields "message" (.str "Stream server error"))
        "type" (.str LOG_STREAM_MESSAGE.ERROR))) k = _
      simp only [getFieldD, getField]
      rw [lookupField_setKey_ne _ _ _ _ hk2, lookupField_setKey_ne _ _ _ _ hk1]

/-- C8: every data-update message — discriminator snapshot, incremental,
unrecognized or missing — is routed with the convertPrimitive flag to the
v1 timeslice decoder exactly when the configured major version equals 1,
and to the v2 timeslice decoder for any other configured version. -/
theorem c8_version_gate (id : Nat) (fields : List (String × JSValue))
    (opts : Opts) (s : XVIZSettings) (v2 d : JSValue)
    (hcv : checkV2MetadataFields (.obj id fields) = .ok v2)
    (hd : discriminator v2 = .ok d)
    (h1 : d ≠ .str "metadata") (h2 : d ≠ .str "error")
    (h3 : d ≠ .str "done") (h4 : d ≠ .str "ack") :
    parseStreamLogData (.obj id fields) opts s
      = .ok (if s.currentMajorVersion = 1
          then .tsV1 v2 opts.convertPrimitive
          else .tsV2 v2 opts.convertPrimitive) := by
  simp only [parseStreamLogData, hcv, hd,
    jsStrictEqStr_eq_false_of_ne _ _ h1, jsStrictEqStr_eq_false_of_ne _ _ h2,
    jsStrictEqStr_eq_false_of_ne _ _ h3, jsStrictEqStr_eq_false_of_ne _ _ h4,
    Bool.false_eq_true, if_false]
  rfl

theorem parseStreamDataMessage_eq_of_ne_blob (m : JSValue) (opts : Opts)
    (s : XVIZSettings) (h : m ≠ .blob) :
    parseStreamDataMessage m opts s
      = match parseStreamDataBody m opts s with
        | .ok (some r) => .result r
        | .ok none => .suppressed
        | .error e => .err e := by
  cases m <;> first | rfl | exact absurd rfl h

theorem parseStreamDataBody_none_iff (m : JSValue) (opts : Opts) (s : XVIZSettings) :
    parseStreamDataBody m opts s = .ok none ↔ foreignEnvelope m = true := by
  unfold parseStreamDataBody foreignEnvelope
  cases hdec : (match m with | .str s2 => jsonParse s2 | _ => decode m true) with
  | error e => simp
  | ok data =>
    cases henv : isEnvelope data with
    | error e => simp [henv]
    | ok env =>
      cases env with
      | false =>
        cases hlog : parseStreamLogData data opts s with
        | error e2 => simp [henv, hlog]
        | ok r => simp [henv, hlog]
      | true =>
        cases hunp : unpackEnvelope data with
        | error e2 => simp [henv, hunp]
        | ok u =>
          cases hns : getField u "namespace" with
          | error e2 => simp [henv, hunp, hns]
          | ok ns =>
            cases hx : jsStrictEqStr ns "xviz" with
            | true =>
              cases hin : getField u "data" with
              | error e2 => simp [henv, hunp, hns, hx, hin]
              | ok inner =>
                cases hlog : parseStreamLogData inner opts s with
                | error e2 => simp [henv, hunp, hns, hx, hin, hlog]
                | ok r => simp [henv, hunp, hns, hx, hin, hlog]
            | false => simp [henv, hunp, hns, hx]

/-- C2: for every non-blob raw payload the call settles in exactly one of
the onResult / onError / no-callback outcomes, and the no-callback outcome
occurs exactly for a successfully decoded envelope whose namespace is not
xviz (the foreign-namespace silent no-op). -/
theorem c2_exactly_one_callback (m : JSValue) (opts : Opts) (s : XVIZSettings)
    (h : m ≠ .blob) :
    (parseStreamDataMessage m opts s = .suppressed ↔ foreignEnvelope m = true)
    ∧ ((∃ r, parseStreamDataMessage m opts s = .result r)
        ∨ (∃ e, parseStreamDataMessage m opts s = .err e)
        ∨ parseStreamDataMessage m opts s = .suppressed) := by
  rw [parseStreamDataMessage_eq_of_ne_blob m opts s h, ← parseStreamDataBody_none_iff m opts s]
  cases hb : parseStreamDataBody m opts s with
  | error e => simp
  | ok o =>
    cases o with
    | none => simp
    | some r => simp

theorem c4_unpackEnvelope_roundtrip_witness :
    ∃ ns ty : String,
      unpackEnvelope (.obj 1 [("type", .str "xviz/foo/bar"), ("data", .num 3)])
        = .ok (.obj 0 [("namespace", .str ns), ("type", .str ty), ("data", .num 3)])
      ∧ ns.data = "xviz/foo/bar".data.takeWhile (fun c => !(c = '/'))
      ∧ ns ++ "/" ++ ty = "xviz/foo/bar" :=
  c4_unpackEnvelope_roundtrip (.obj 1 [("type", .str "xviz/foo/bar"), ("data", .num 3)])
    "xviz/foo/bar" (.num 3) rfl rfl (by decide)

theorem c5_decode_in_place_witness :
    objId (.obj 5 [("x", .obj 0 [])]) = 5
    ∧ ∃ fields2, (JSValue.obj 5 [("x", (.obj 0 [] : JSValue))]) = .obj 5 fields2
        ∧ List.Forall₂ (fun kv kv2 => kv2.1 = kv.1 ∧ decodeNonRec kv.2 = .ok kv2.2)
            [("x", JSValue.bytes [123, 125])] fields2 :=
  c5_decode_in_place 5 [("x", .bytes [123, 125])] (.obj 5 [("x", .obj 0 [])]) rfl

theorem c6_decode_one_level_witness :
    decode (.obj 1 [("a", .bytes [123, 125])]) true = .ok (.obj 1 [("a", .obj 0 [])])
    ∧ decode (.obj 1 [("a", .obj 2 [("b", .bytes [123, 125])])]) true
        = .ok (.obj 1 [("a", .obj 2 [("b", .bytes [123, 125])])]) :=
  c6_decode_one_level "a" "b" [123, 125] 1 2 (.obj 0 []) rfl rfl

theorem c9_decode_idempotent_witness :
    decode (.obj 1 [("a", .num 1), ("b", .str "c")]) true
      = .ok (.obj 1 [("a", .num 1), ("b", .str "c")]) :=
  c9_decode_idempotent (.obj 1 [("a", .num 1), ("b", .str "c")]) rfl rfl rfl
    (by
      intro x hx
      simp [jsFieldValues] at hx
      rcases hx with rfl | rfl <;> rfl)

theorem c1_fixup_condition_witness :
    ∃ r, parseStreamLogData (.obj 1 [("streams", .num 1), ("version", .str "2.0.0")]) {} ⟨2⟩
        = .ok r
      ∧ getFieldD r "type" = .str LOG_STREAM_MESSAGE.METADATA :=
  (c1_fixup_condition 1 [("streams", .num 1), ("version", .str "2.0.0")] {} ⟨2⟩).1 ⟨rfl, rfl⟩

theorem c10_nullish_payload_errors_witness :
    (∃ e, parseStreamDataMessage .null {} ⟨2⟩ = .err e) ∧ decode .null true = .ok .null :=
  c10_nullish_payload_errors .null {} ⟨2⟩ (Or.inl rfl)

theorem c7_error_record_shape_witness :
    getFieldD (.obj 0 [("type", .str "ERROR"), ("code", .num 42),
        ("message", .str "Stream server error")]) "message" = .str "Stream server error"
    ∧ getFieldD (.obj 0 [("type", .str "ERROR"), ("code", .num 42),
        ("message", .str "Stream server error")]) "type" = .str LOG_STREAM_MESSAGE.ERROR
    ∧ getFieldD (.obj 0 [("type", .str "ERROR"), ("code", .num 42),
        ("message", .str "Stream server error")]) "code"
        = getFieldD (.obj 3 [("type", .str "error"), ("code", .num 42)]) "code" := by
  have th := c7_error_record_shape 3 [("type", .str "error"), ("code", .num 42)] {} ⟨2⟩
    (.obj 3 [("type", .str "error"), ("code", .num 42)])
    (.obj 0 [("type", .str "ERROR"), ("code", .num 42),
      ("message", .str "Stream server error")])
    rfl rfl rfl
  exact ⟨th.1, th.2.1, th.2.2 "code" (by decide) (by decide)⟩

theorem c8_version_gate_witness :
    parseStreamLogData (.obj 1 [("update_type", .str "snapshot")]) {} ⟨1⟩
      = .ok (if (XVIZSettings.mk 1).currentMajorVersion = 1
          then .tsV1 (.obj 1 [("update_type", .str "snapshot")]) ({} : Opts).convertPrimitive
          else .tsV2 (.obj 1 [("update_type", .str "snapshot")]) ({} : Opts).convertPrimitive) :=
  c8_version_gate 1 [("update_type", .str "snapshot")] {} ⟨1⟩
    (.obj 1 [("update_type", .str "snapshot")]) (.str "snapshot") rfl rfl
    (fun h => absurd (JSValue.str.inj h) (by decide))
    (fun h => absurd (JSValue.str.inj h) (by decide))
    (fun h => absurd (JSValue.str.inj h) (by decide))
    (fun h => absurd (JSValue.str.inj h) (by decide))

theorem c2_exactly_one_callback_witness :
    (parseStreamDataMessage
        (.obj 1 [("type", .str "other/x"), ("data", .obj 2 [("z", .num 1)])]) {} ⟨2⟩
        = .suppressed
      ↔ foreignEnvelope (.obj 1 [("type", .str "other/x"), ("data", .obj 2 [("z", .num 1)])])
        = true)
    ∧ ((∃ r, parseStreamDataMessage
          (.obj 1 [("type", .str "other/x"), ("data", .obj 2 [("z", .num 1)])]) {} ⟨2⟩
          = .result r)
      ∨ (∃ e, parseStreamDataMessage
          (.obj 1 [("type", .str "other/x"), ("data", .obj 2 [("z", .num 1)])]) {} ⟨2⟩
          = .err e)
      ∨ parseStreamDataMessage
          (.obj 1 [("type", .str "other/x"), ("data", .obj 2 [("z", .num 1)])]) {} ⟨2⟩
          = .suppressed) :=
  c2_exactly_one_callback (.obj 1 [("type", .str "other/x"), ("data", .obj 2 [("z", .num 1)])])
    {} ⟨2⟩ (fun h => JSValue.noConfusion h)
